import Mathlib

/-!
Shallow embedding of the 1HalertBot breakout-alert engine.

The repository has two iterations of the same engine: `main.py` (tiered
watchlist, repeat alerts) and `coinselectbot.py` (flat top-gainer watchlist,
deduplicated alerts).  Prices are modelled as rationals, per-symbol dicts as
functions `String → Option ℚ`, and the HTTP market-data gateway as a pure
per-symbol oracle (`Fetch`).  Fallible fetches return `Option`.
-/

/-- One kline row: open time plus open, high, low and close prices.  The
Python code reads `row[2]` as the high and `row[3]` as the low of the
previous 1h candle. -/
structure Candle where
  openTime : Nat
  openPrice : ℚ
  high : ℚ
  low : ℚ
  close : ℚ
deriving DecidableEq, Repr

/-- Pure oracle standing for the market-data HTTP gateway within one
evaluation: for each symbol it yields the current price (`ticker/price`)
and the recent klines, or `none` on fetch failure.  Repeated fetches of the
same symbol inside one evaluation cycle return the same snapshot. -/
structure Fetch where
  price : String → Option ℚ
  klines : String → Option (List Candle)

/-- Pointwise update of a per-symbol map: models `d[s] = v` on a dict. -/
def upd (m : String → Option ℚ) (s : String) (v : ℚ) : String → Option ℚ :=
  fun x => if x = s then some v else m x

namespace Main

/-- Per-symbol breakout reference state of `main.py`: the `previous_highs`
and `previous_lows` dictionaries. -/
structure TrackState where
  previous_highs : String → Option ℚ
  previous_lows : String → Option ℚ

/-- Embeds `main.py` `check_cross_above_high`: fetch klines (need at least
2 rows), take `klines[0][2]` as `prev_high`, fetch the current price, report
`crossed = current_price > prev_high and prev_high > 0`, and store
`prev_high` into `previous_highs`.  The comparison uses the just-fetched
candle high; the stored map is only written, never read. -/
def check_cross_above_high (f : Fetch) (st : TrackState) (s : String) :
    Bool × TrackState :=
  match f.klines s with
  | none => (false, st)
  | some [] => (false, st)
  | some [_] => (false, st)
  | some (k0 :: _ :: _) =>
    match f.price s with
    | none => (false, st)
    | some p =>
      (decide (k0.high < p) && decide (0 < k0.high),
        { st with previous_highs := upd st.previous_highs s k0.high })

/-- Embeds `main.py` `check_cross_below_low`, symmetric to the high check:
`crossed = current_price < prev_low and prev_low > 0`, then the fetched low
is stored into `previous_lows`. -/
def check_cross_below_low (f : Fetch) (st : TrackState) (s : String) :
    Bool × TrackState :=
  match f.klines s with
  | none => (false, st)
  | some [] => (false, st)
  | some [_] => (false, st)
  | some (k0 :: _ :: _) =>
    match f.price s with
    | none => (false, st)
    | some p =>
      (decide (p < k0.low) && decide (0 < k0.low),
        { st with previous_lows := upd st.previous_lows s k0.low })

end Main

namespace Coinselect

/-- Per-symbol state of `coinselectbot.py`: reference dictionaries plus the
`alerted_symbols` deduplication set (cleared on watchlist refresh). -/
structure TrackState where
  previous_highs : String → Option ℚ
  previous_lows : String → Option ℚ
  alerted_symbols : List String

/-- Embeds `coinselectbot.py` `check_cross_above_high`: if the symbol has no
stored reference it is first seeded with the fetched `prev_high`; the cross
test compares the current price against the stored (previous-cycle)
reference, and afterwards the fetched high overwrites the reference for the
next cycle. -/
def check_cross_above_high (f : Fetch) (st : TrackState) (s : String) :
    Bool × TrackState :=
  match f.klines s with
  | none => (false, st)
  | some [] => (false, st)
  | some [_] => (false, st)
  | some (k0 :: _ :: _) =>
    match f.price s with
    | none => (false, st)
    | some p =>
      let ref := (st.previous_highs s).getD k0.high
      (decide (ref < p) && decide (0 < ref),
        { st with previous_highs := upd st.previous_highs s k0.high })

/-- Embeds `coinselectbot.py` `check_cross_below_low`, symmetric to the high
check: seed-if-absent, compare against the stored reference, then overwrite
the reference with the fetched low. -/
def check_cross_below_low (f : Fetch) (st : TrackState) (s : String) :
    Bool × TrackState :=
  match f.klines s with
  | none => (false, st)
  | some [] => (false, st)
  | some [_] => (false, st)
  | some (k0 :: _ :: _) =>
    match f.price s with
    | none => (false, st)
    | some p =>
      let ref := (st.previous_lows s).getD k0.low
      (decide (p < ref) && decide (0 < ref),
        { st with previous_lows := upd st.previous_lows s k0.low })

end Coinselect

/-- C1 counterexample: in the `main.py` variant the cross test uses the
just-fetched candle high, not the previously stored reference.  Here the
stored reference is 100 and the current price 95 — price did not exceed the
previous-cycle reference — yet a cross is reported because the just-fetched
high is 90 and 95 > 90. -/
theorem c1_main_compares_fetched_high_counterexample :
    (Main.check_cross_above_high
        ⟨fun _ => some 95, fun _ => some [⟨0, 85, 90, 80, 86⟩, ⟨1, 86, 91, 81, 87⟩]⟩
        ⟨fun _ => some 100, fun _ => none⟩ ("AUSDT")).1 = true
      ∧ ¬ ((95 : ℚ) > 100) :=
  ⟨by decide, by decide⟩

/-- C1 amended: in the `coinselectbot.py` variant the claim holds — when a
reference `h` is already stored for the symbol, the evaluation compares the
current price `p` against `h` (never against the just-fetched high), and the
just-fetched candle high `k0.high` only becomes the reference stored for the
next cycle. -/
theorem c1_coinselect_lagged_reference (f : Fetch) (st : Coinselect.TrackState)
    (s : String) (k0 k1 : Candle) (ks : List Candle) (p h : ℚ)
    (hk : f.klines s = some (k0 :: k1 :: ks)) (hp : f.price s = some p)
    (hh : st.previous_highs s = some h) :
    (Coinselect.check_cross_above_high f st s).1
        = (decide (h < p) && decide (0 < h))
      ∧ ((Coinselect.check_cross_above_high f st s).2).previous_highs s
        = some k0.high := by
  unfold Coinselect.check_cross_above_high
  rw [hk, hp]
  simp [hh, upd]

/-- C1 witness: the amended theorem applied at a concrete state (stored
reference 100, fetched high 90, current price 95): no cross is reported and
the new stored reference is the fetched high 90. -/
theorem c1_coinselect_lagged_reference_witness :
    (Coinselect.check_cross_above_high
        ⟨fun _ => some 95, fun _ => some [⟨0, 85, 90, 80, 86⟩, ⟨1, 86, 91, 81, 87⟩]⟩
        ⟨fun _ => some 100, fun _ => none, []⟩ ("AUSDT")).1
        = (decide ((100 : ℚ) < 95) && decide ((0 : ℚ) < 100))
      ∧ ((Coinselect.check_cross_above_high
        ⟨fun _ => some 95, fun _ => some [⟨0, 85, 90, 80, 86⟩, ⟨1, 86, 91, 81, 87⟩]⟩
        ⟨fun _ => some 100, fun _ => none, []⟩ ("AUSDT")).2).previous_highs ("AUSDT")
        = some (Candle.mk 0 85 90 80 86).high :=
  c1_coinselect_lagged_reference _ _ _ _ _ _ _ _ rfl rfl rfl

/-- C2 counterexample: in the `main.py` variant, a symbol whose reference
high is seeded at H = 100 > 0 and whose current price is p = 103 > H is
claimed to report a cross; instead the code compares against the just-fetched
high 105 and reports no cross. -/
theorem c2_main_seeded_reference_counterexample :
    (Main.check_cross_above_high
        ⟨fun _ => some 103, fun _ => some [⟨0, 101, 105, 95, 102⟩, ⟨1, 102, 104, 96, 103⟩]⟩
        ⟨fun _ => some 100, fun _ => none⟩ ("BUSDT")).1 = false
      ∧ (0 : ℚ) < 100 ∧ (100 : ℚ) < 103 :=
  ⟨by decide, by decide, by decide⟩

/-- C2 amended: in the `coinselectbot.py` variant the claim holds — with a
stored reference high H > 0 and fetched data available, the evaluation
reports a cross above the high iff the current price p exceeds H, and
whenever the evaluation completes the stored reference is replaced by the
latest closed candle's high regardless of the cross outcome. -/
theorem c2_coinselect_breakout_monotonicity (f : Fetch)
    (st : Coinselect.TrackState) (s : String) (k0 k1 : Candle)
    (ks : List Candle) (p H : ℚ)
    (hk : f.klines s = some (k0 :: k1 :: ks)) (hp : f.price s = some p)
    (hH : st.previous_highs s = some H) (hpos : 0 < H) :
    ((Coinselect.check_cross_above_high f st s).1 = true ↔ H < p)
      ∧ ((Coinselect.check_cross_above_high f st s).2).previous_highs s
        = some k0.high := by
  unfold Coinselect.check_cross_above_high
  rw [hk, hp]
  simp [upd, hH, hpos]

/-- C2 witness: the amended theorem applied at a concrete state (stored
reference 100 > 0, fetched high 105, current price 103). -/
theorem c2_coinselect_breakout_monotonicity_witness :
    (((Coinselect.check_cross_above_high
        ⟨fun _ => some 103, fun _ => some [⟨0, 101, 105, 95, 102⟩, ⟨1, 102, 104, 96, 103⟩]⟩
        ⟨fun _ => some 100, fun _ => none, []⟩ ("BUSDT")).1 = true ↔ (100 : ℚ) < 103)
      ∧ ((Coinselect.check_cross_above_high
        ⟨fun _ => some 103, fun _ => some [⟨0, 101, 105, 95, 102⟩, ⟨1, 102, 104, 96, 103⟩]⟩
        ⟨fun _ => some 100, fun _ => none, []⟩ ("BUSDT")).2).previous_highs ("BUSDT")
        = some (Candle.mk 0 101 105 95 102).high) :=
  c2_coinselect_breakout_monotonicity _ _ _ _ _ _ _ _ rfl rfl rfl (by decide)

inductive AlertKind
  | high
  | low
deriving DecidableEq, Repr

/-- One dispatched breakout alert: `send_alert(symbol, current_price,
reference_price, breakout_type)`. -/
structure Alert where
  symbol : String
  currentPrice : ℚ
  referencePrice : ℚ
  kind : AlertKind
deriving DecidableEq, Repr

namespace Main

/-- Embeds the per-symbol body of `main.py` `monitor` (the loop over
`self.symbols`): fetch the current price (skip on failure), run the high
check and alert on a cross, else run the low check and alert on a cross.
The alert reference is `self.previous_highs[symbol]` (resp. lows) as read
after the check updated it. -/
def processSymbol (f : Fetch) (st : TrackState) (s : String) :
    List Alert × TrackState :=
  match f.price s with
  | none => ([], st)
  | some p =>
    let r1 := check_cross_above_high f st s
    if r1.1 then
      ([⟨s, p, (r1.2.previous_highs s).getD 0, AlertKind.high⟩], r1.2)
    else
      let r2 := check_cross_below_low f r1.2 s
      if r2.1 then
        ([⟨s, p, (r2.2.previous_lows s).getD 0, AlertKind.low⟩], r2.2)
      else
        ([], r2.2)

/-- One hourly breakout pass of `main.py` `monitor`: process the watchlist
symbols in order, threading the reference state and collecting alerts. -/
def runCycle (f : Fetch) : List String → TrackState → List Alert × TrackState
  | [], st => ([], st)
  | s :: rest, st =>
    let r := processSymbol f st s
    let rr := runCycle f rest r.2
    (r.1 ++ rr.1, rr.2)

end Main

namespace Coinselect

/-- Embeds the per-symbol body of `coinselectbot.py` `monitor`: fetch the
current price (skip on failure), then alert on a high cross only when the
symbol is not in `alerted_symbols` (adding it on alert), else likewise for
the low cross.  Both cross checks run (and update references) even when the
dedup set suppresses the alert, matching Python's short-circuit `and`. -/
def processSymbol (f : Fetch) (st : TrackState) (s : String) :
    List Alert × TrackState :=
  match f.price s with
  | none => ([], st)
  | some p =>
    let r1 := check_cross_above_high f st s
    if r1.1 && !(r1.2.alerted_symbols.contains s) then
      ([⟨s, p, (r1.2.previous_highs s).getD 0, AlertKind.high⟩],
        { r1.2 with alerted_symbols := s :: r1.2.alerted_symbols })
    else
      let r2 := check_cross_below_low f r1.2 s
      if r2.1 && !(r2.2.alerted_symbols.contains s) then
        ([⟨s, p, (r2.2.previous_lows s).getD 0, AlertKind.low⟩],
          { r2.2 with alerted_symbols := s :: r2.2.alerted_symbols })
      else
        ([], r2.2)

end Coinselect

/-- Embeds `is_persistent_symbol` (identical in both files): a symbol with
no recorded entry time is not persistent; otherwise it is persistent iff
`now - entry` exceeds two days in seconds.  Times are rational seconds. -/
def is_persistent_symbol (symbol_entry_times : String → Option ℚ) (now : ℚ)
    (s : String) : Bool :=
  match symbol_entry_times s with
  | none => false
  | some entry => decide (now - entry > 2 * 24 * 60 * 60)

theorem Main.processSymbol_price_none (f : Fetch) (st : Main.TrackState)
    (s : String) (hp : f.price s = none) :
    Main.processSymbol f st s = ([], st) := by
  simp [Main.processSymbol, hp]

theorem Main.processSymbol_high (f : Fetch) (st : Main.TrackState) (s : String)
    (p : ℚ) (hp : f.price s = some p)
    (hc : (Main.check_cross_above_high f st s).1 = true) :
    Main.processSymbol f st s =
      ([⟨s, p, (((Main.check_cross_above_high f st s).2).previous_highs s).getD 0,
          AlertKind.high⟩],
        (Main.check_cross_above_high f st s).2) := by
  simp [Main.processSymbol, hp, hc]

theorem Main.processSymbol_low (f : Fetch) (st : Main.TrackState) (s : String)
    (p : ℚ) (hp : f.price s = some p)
    (hc1 : (Main.check_cross_above_high f st s).1 = false)
    (hc2 : (Main.check_cross_below_low f (Main.check_cross_above_high f st s).2 s).1
        = true) :
    Main.processSymbol f st s =
      ([⟨s, p,
          (((Main.check_cross_below_low f (Main.check_cross_above_high f st s).2 s).2).previous_lows s).getD 0,
          AlertKind.low⟩],
        (Main.check_cross_below_low f (Main.check_cross_above_high f st s).2 s).2) := by
  simp [Main.processSymbol, hp, hc1, hc2]

theorem Main.processSymbol_nocross (f : Fetch) (st : Main.TrackState)
    (s : String) (p : ℚ) (hp : f.price s = some p)
    (hc1 : (Main.check_cross_above_high f st s).1 = false)
    (hc2 : (Main.check_cross_below_low f (Main.check_cross_above_high f st s).2 s).1
        = false) :
    Main.processSymbol f st s =
      ([], (Main.check_cross_below_low f (Main.check_cross_above_high f st s).2 s).2) := by
  simp [Main.processSymbol, hp, hc1, hc2]

theorem Coinselect.check_above_keeps_alerted (f : Fetch)
    (st : Coinselect.TrackState) (s : String) :
    ((Coinselect.check_cross_above_high f st s).2).alerted_symbols
      = st.alerted_symbols := by
  unfold Coinselect.check_cross_above_high
  cases hk : f.klines s with
  | none => rfl
  | some ks =>
    cases ks with
    | nil => rfl
    | cons k0 t =>
      cases t with
      | nil => rfl
      | cons k1 t2 =>
        cases hp : f.price s with
        | none => rfl
        | some p => rfl

theorem Coinselect.check_below_keeps_alerted (f : Fetch)
    (st : Coinselect.TrackState) (s : String) :
    ((Coinselect.check_cross_below_low f st s).2).alerted_symbols
      = st.alerted_symbols := by
  unfold Coinselect.check_cross_below_low
  cases hk : f.klines s with
  | none => rfl
  | some ks =>
    cases ks with
    | nil => rfl
    | cons k0 t =>
      cases t with
      | nil => rfl
      | cons k1 t2 =>
        cases hp : f.price s with
        | none => rfl
        | some p => rfl

theorem Coinselect.processSymbol_skip_no_price (f : Fetch)
    (st : Coinselect.TrackState) (s : String) (hp : f.price s = none) :
    Coinselect.processSymbol f st s = ([], st) := by
  simp [Coinselect.processSymbol, hp]

theorem Coinselect.processSymbol_highAlert (f : Fetch) (st : Coinselect.TrackState)
    (s : String) (p : ℚ) (hp : f.price s = some p)
    (hc : ((Coinselect.check_cross_above_high f st s).1
        && !(((Coinselect.check_cross_above_high f st s).2).alerted_symbols.contains s))
        = true) :
    Coinselect.processSymbol f st s =
      ([⟨s, p, (((Coinselect.check_cross_above_high f st s).2).previous_highs s).getD 0,
          AlertKind.high⟩],
        { (Coinselect.check_cross_above_high f st s).2 with
            alerted_symbols :=
              s :: ((Coinselect.check_cross_above_high f st s).2).alerted_symbols }) := by
  simp only [Coinselect.processSymbol, hp, hc, if_true]

theorem Coinselect.processSymbol_lowAlert (f : Fetch) (st : Coinselect.TrackState)
    (s : String) (p : ℚ) (hp : f.price s = some p)
    (hc1 : ((Coinselect.check_cross_above_high f st s).1
        && !(((Coinselect.check_cross_above_high f st s).2).alerted_symbols.contains s))
        = false)
    (hc2 : ((Coinselect.check_cross_below_low f (Coinselect.check_cross_above_high f st s).2 s).1
        && !(((Coinselect.check_cross_below_low f (Coinselect.check_cross_above_high f st s).2 s).2).alerted_symbols.contains s))
        = true) :
    Coinselect.processSymbol f st s =
      ([⟨s, p,
          (((Coinselect.check_cross_below_low f (Coinselect.check_cross_above_high f st s).2 s).2).previous_lows s).getD 0,
          AlertKind.low⟩],
        { (Coinselect.check_cross_below_low f (Coinselect.check_cross_above_high f st s).2 s).2 with
            alerted_symbols :=
              s :: ((Coinselect.check_cross_below_low f (Coinselect.check_cross_above_high f st s).2 s).2).alerted_symbols }) := by
  simp only [Coinselect.processSymbol, hp, hc1, hc2, if_true, Bool.false_eq_true,
    if_false]

theorem Coinselect.processSymbol_noalert (f : Fetch) (st : Coinselect.TrackState)
    (s : String) (p : ℚ) (hp : f.price s = some p)
    (hc1 : ((Coinselect.check_cross_above_high f st s).1
        && !(((Coinselect.check_cross_above_high f st s).2).alerted_symbols.contains s))
        = false)
    (hc2 : ((Coinselect.check_cross_below_low f (Coinselect.check_cross_above_high f st s).2 s).1
        && !(((Coinselect.check_cross_below_low f (Coinselect.check_cross_above_high f st s).2 s).2).alerted_symbols.contains s))
        = false) :
    Coinselect.processSymbol f st s =
      ([], (Coinselect.check_cross_below_low f (Coinselect.check_cross_above_high f st s).2 s).2) := by
  simp only [Coinselect.processSymbol, hp, hc1, hc2, Bool.false_eq_true, if_false]

/-- C6 counterexample: in `coinselectbot.py`, alert dispatch is NOT stateless
with respect to alert history.  Here a cross above the stored reference is
detected (price 105 against reference 100), but the symbol is already in
`alerted_symbols`, so no alert is dispatched. -/
theorem c6_coinselect_dedup_counterexample :
    (Coinselect.check_cross_above_high
        ⟨fun _ => some 105, fun _ => some [⟨0, 95, 98, 90, 96⟩, ⟨1, 96, 99, 91, 97⟩]⟩
        ⟨fun _ => some 100, fun _ => some 50, [("AUSDT")]⟩ ("AUSDT")).1 = true
      ∧ (Coinselect.processSymbol
        ⟨fun _ => some 105, fun _ => some [⟨0, 95, 98, 90, 96⟩, ⟨1, 96, 99, 91, 97⟩]⟩
        ⟨fun _ => some 100, fun _ => some 50, [("AUSDT")]⟩ ("AUSDT")).1 = [] :=
  ⟨by decide, by decide⟩

/-- Models cross detection in one evaluation of a symbol by the `main.py`
monitor body: the above-high check fires, or (its branch not taken) the
below-low check, run on the state the high check left behind, fires. -/
def Main.crossDetected (f : Fetch) (st : Main.TrackState) (s : String) : Prop :=
  (Main.check_cross_above_high f st s).1 = true
    ∨ (Main.check_cross_below_low f (Main.check_cross_above_high f st s).2 s).1 = true

theorem Main.processSymbol_cross_emits (f : Fetch) (st : Main.TrackState)
    (s : String) (p : ℚ) (hp : f.price s = some p)
    (hc : Main.crossDetected f st s) :
    (Main.processSymbol f st s).1.length = 1 := by
  rcases hc with hc | hc
  · rw [Main.processSymbol_high f st s p hp hc]
    rfl
  · cases habove : (Main.check_cross_above_high f st s).1 with
    | true =>
      rw [Main.processSymbol_high f st s p hp habove]
      rfl
    | false =>
      rw [Main.processSymbol_low f st s p hp habove hc]
      rfl

/-- C6 amended: the `main.py` variant is stateless with respect to alert
history: whenever a cross is detected — above the high, or below the low —
an alert is dispatched, including a second alert for the same symbol in the
very next cycle after an earlier alert. -/
theorem c6_main_stateless_repeat_alerts (f1 f2 : Fetch) (st : Main.TrackState)
    (s : String) (p1 p2 : ℚ) (hp1 : f1.price s = some p1)
    (hc1 : Main.crossDetected f1 st s)
    (hp2 : f2.price s = some p2)
    (hc2 : Main.crossDetected f2 (Main.processSymbol f1 st s).2 s) :
    (Main.processSymbol f1 st s).1.length = 1
      ∧ (Main.processSymbol f2 (Main.processSymbol f1 st s).2 s).1.length = 1 :=
  ⟨Main.processSymbol_cross_emits f1 st s p1 hp1 hc1,
    Main.processSymbol_cross_emits f2 (Main.processSymbol f1 st s).2 s p2 hp2 hc2⟩

/-- C6 witness: a concrete symbol that crosses above the high in one cycle
and below the low in the next is alerted in both cycles in the `main.py`
variant. -/
theorem c6_main_stateless_repeat_alerts_witness :
    (Main.processSymbol
        ⟨fun _ => some 103, fun _ => some [⟨0, 98, 100, 95, 99⟩, ⟨1, 99, 101, 96, 100⟩]⟩
        ⟨fun _ => none, fun _ => none⟩ ("XUSDT")).1.length = 1
      ∧ (Main.processSymbol
        ⟨fun _ => some 50, fun _ => some [⟨2, 101, 104, 60, 102⟩, ⟨3, 102, 105, 61, 103⟩]⟩
        (Main.processSymbol
          ⟨fun _ => some 103, fun _ => some [⟨0, 98, 100, 95, 99⟩, ⟨1, 99, 101, 96, 100⟩]⟩
          ⟨fun _ => none, fun _ => none⟩ ("XUSDT")).2 ("XUSDT")).1.length = 1 :=
  c6_main_stateless_repeat_alerts _ _ _ _ 103 50 rfl (Or.inl (by decide)) rfl
    (Or.inr (by decide))

/-- C7: in both variants at most one alert is emitted per symbol per
evaluation, and when the above-high condition fires the single emitted alert
is the high one (the low branch is not reached), in `coinselectbot.py`
additionally assuming the symbol is not dedup-suppressed. -/
theorem c7_single_alert_high_precedence (f : Fetch) (stm : Main.TrackState)
    (stc : Coinselect.TrackState) (s : String) :
    (Main.processSymbol f stm s).1.length ≤ 1
      ∧ (Coinselect.processSymbol f stc s).1.length ≤ 1
      ∧ (∀ p, f.price s = some p →
          (Main.check_cross_above_high f stm s).1 = true →
          ∃ a, (Main.processSymbol f stm s).1 = [a] ∧ a.kind = AlertKind.high)
      ∧ (∀ p, f.price s = some p →
          (Coinselect.check_cross_above_high f stc s).1 = true →
          stc.alerted_symbols.contains s = false →
          ∃ a, (Coinselect.processSymbol f stc s).1 = [a] ∧ a.kind = AlertKind.high) := by
  refine ⟨?_, ?_, ?_, ?_⟩
  · cases hp : f.price s with
    | none => rw [Main.processSymbol_price_none f stm s hp]; simp
    | some p =>
      cases hc1 : (Main.check_cross_above_high f stm s).1 with
      | true => rw [Main.processSymbol_high f stm s p hp hc1]; simp
      | false =>
        cases hc2 : (Main.check_cross_below_low f (Main.check_cross_above_high f stm s).2 s).1 with
        | true => rw [Main.processSymbol_low f stm s p hp hc1 hc2]; simp
        | false => rw [Main.processSymbol_nocross f stm s p hp hc1 hc2]; simp
  · cases hp : f.price s with
    | none => rw [Coinselect.processSymbol_skip_no_price f stc s hp]; simp
    | some p =>
      cases hc1 : ((Coinselect.check_cross_above_high f stc s).1
          && !(((Coinselect.check_cross_above_high f stc s).2).alerted_symbols.contains s)) with
      | true => rw [Coinselect.processSymbol_highAlert f stc s p hp hc1]; simp
      | false =>
        cases hc2 : ((Coinselect.check_cross_below_low f (Coinselect.check_cross_above_high f stc s).2 s).1
            && !(((Coinselect.check_cross_below_low f (Coinselect.check_cross_above_high f stc s).2 s).2).alerted_symbols.contains s)) with
        | true => rw [Coinselect.processSymbol_lowAlert f stc s p hp hc1 hc2]; simp
        | false => rw [Coinselect.processSymbol_noalert f stc s p hp hc1 hc2]; simp
  · intro p hp hc
    rw [Main.processSymbol_high f stm s p hp hc]
    exact ⟨_, rfl, rfl⟩
  · intro p hp hc hna
    have hcomp : ((Coinselect.check_cross_above_high f stc s).1
        && !(((Coinselect.check_cross_above_high f stc s).2).alerted_symbols.contains s))
        = true := by
      rw [hc, Coinselect.check_above_keeps_alerted, hna]
      rfl
    rw [Coinselect.processSymbol_highAlert f stc s p hp hcomp]
    exact ⟨_, rfl, rfl⟩

/-- C7 witness: a concrete evaluation where the (degenerate) candle data make
both the above-high and below-low conditions hold, and a single high alert is
emitted by both variants. -/
theorem c7_single_alert_high_precedence_witness :
    (∃ a, (Main.processSymbol
        ⟨fun _ => some 103, fun _ => some [⟨0, 98, 100, 95, 99⟩, ⟨1, 99, 101, 96, 100⟩]⟩
        ⟨fun _ => none, fun _ => none⟩ ("YUSDT")).1 = [a] ∧ a.kind = AlertKind.high)
      ∧ (∃ a, (Coinselect.processSymbol
        ⟨fun _ => some 103, fun _ => some [⟨0, 98, 100, 95, 99⟩, ⟨1, 99, 101, 96, 100⟩]⟩
        ⟨fun _ => some 100, fun _ => some 200, []⟩ ("YUSDT")).1 = [a]
          ∧ a.kind = AlertKind.high) :=
  ⟨(c7_single_alert_high_precedence
      ⟨fun _ => some 103, fun _ => some [⟨0, 98, 100, 95, 99⟩, ⟨1, 99, 101, 96, 100⟩]⟩
      ⟨fun _ => none, fun _ => none⟩
      ⟨fun _ => some 100, fun _ => some 200, []⟩ ("YUSDT")).2.2.1 103 rfl (by decide),
    (c7_single_alert_high_precedence
      ⟨fun _ => some 103, fun _ => some [⟨0, 98, 100, 95, 99⟩, ⟨1, 99, 101, 96, 100⟩]⟩
      ⟨fun _ => none, fun _ => none⟩
      ⟨fun _ => some 100, fun _ => some 200, []⟩ ("YUSDT")).2.2.2 103 rfl (by decide)
      (by decide)⟩

/-- Per-symbol fetch failure modes named by C10: current price unavailable,
kline fetch failing, or the kline fetch returning fewer than 2 rows. -/
def symbolFetchFails (f : Fetch) (s : String) : Prop :=
  f.price s = none ∨ f.klines s = none
    ∨ ∃ ks, f.klines s = some ks ∧ ks.length < 2

theorem Main.check_above_klines_bad (f : Fetch) (st : Main.TrackState)
    (s : String)
    (h : f.klines s = none ∨ ∃ ks, f.klines s = some ks ∧ ks.length < 2) :
    Main.check_cross_above_high f st s = (false, st) := by
  rcases h with h | ⟨ks, hks, hlen⟩
  · simp [Main.check_cross_above_high, h]
  · match ks, hlen with
    | [], _ => simp [Main.check_cross_above_high, hks]
    | [a], _ => simp [Main.check_cross_above_high, hks]
    | a :: b :: t, hlen => exact absurd hlen (by simp)

theorem Main.check_below_klines_bad (f : Fetch) (st : Main.TrackState)
    (s : String)
    (h : f.klines s = none ∨ ∃ ks, f.klines s = some ks ∧ ks.length < 2) :
    Main.check_cross_below_low f st s = (false, st) := by
  rcases h with h | ⟨ks, hks, hlen⟩
  · simp [Main.check_cross_below_low, h]
  · match ks, hlen with
    | [], _ => simp [Main.check_cross_below_low, hks]
    | [a], _ => simp [Main.check_cross_below_low, hks]
    | a :: b :: t, hlen => exact absurd hlen (by simp)

/-- C10: a per-symbol fetch failure (missing price, missing klines, or fewer
than 2 klines) makes that symbol's evaluation a no-op — no alert, no state
change — and deleting the failing symbol from the cycle leaves the cycle's
alerts and final state unchanged: evaluation proceeds to the remaining
symbols exactly as if the failing one were skipped. -/
theorem c10_per_symbol_failure_is_skip (f : Fetch) (s : String)
    (h : symbolFetchFails f s) :
    (∀ st, Main.processSymbol f st s = ([], st))
      ∧ ∀ pre post st, Main.runCycle f (pre ++ s :: post) st
          = Main.runCycle f (pre ++ post) st := by
  have hskip : ∀ st, Main.processSymbol f st s = ([], st) := by
    intro st
    rcases h with hp | hk
    · exact Main.processSymbol_price_none f st s hp
    · cases hp : f.price s with
      | none => exact Main.processSymbol_price_none f st s hp
      | some p =>
        have h1 : Main.check_cross_above_high f st s = (false, st) :=
          Main.check_above_klines_bad f st s hk
        have h2 : Main.check_cross_below_low f st s = (false, st) :=
          Main.check_below_klines_bad f st s hk
        have h3 := Main.processSymbol_nocross f st s p hp
          (by rw [h1]) (by rw [h1]; rw [h2])
        rw [h3, h1, h2]
  refine ⟨hskip, ?_⟩
  intro pre post st
  induction pre generalizing st with
  | nil => simp [Main.runCycle, hskip]
  | cons a t ih => simp [Main.runCycle, ih]

/-- C10 witness: with a price fetch failing for one symbol, the cycle over
a three-symbol watchlist equals the cycle with that symbol removed. -/
theorem c10_per_symbol_failure_is_skip_witness :
    Main.runCycle
        ⟨fun x => if x = ("FUSDT") then none else some 103,
          fun _ => some [⟨0, 98, 100, 95, 99⟩, ⟨1, 99, 101, 96, 100⟩]⟩
        ([("AUSDT"), ("FUSDT"), ("BUSDT")]) ⟨fun _ => none, fun _ => none⟩
      = Main.runCycle
        ⟨fun x => if x = ("FUSDT") then none else some 103,
          fun _ => some [⟨0, 98, 100, 95, 99⟩, ⟨1, 99, 101, 96, 100⟩]⟩
        ([("AUSDT"), ("BUSDT")]) ⟨fun _ => none, fun _ => none⟩ :=
  (c10_per_symbol_failure_is_skip _ _ (Or.inl (by decide))).2
    ([("AUSDT")]) ([("BUSDT")]) _

/-- C8: the persistence classifier is true iff the elapsed time strictly
exceeds 172800 seconds; at exactly the threshold and one second below it is
false, one second above it is true. -/
theorem c8_persistence_strict_threshold (et : String → Option ℚ) (now t : ℚ)
    (s : String) (ht : et s = some t) :
    (is_persistent_symbol et now s = true ↔ now - t > 2 * 24 * 60 * 60)
      ∧ is_persistent_symbol (fun _ => some 0) (172800) ("A") = false
      ∧ is_persistent_symbol (fun _ => some 0) (172799) ("A") = false
      ∧ is_persistent_symbol (fun _ => some 0) (172801) ("A") = true := by
  refine ⟨?_, ?_, ?_, ?_⟩
  · simp [is_persistent_symbol, ht]
  · rw [show is_persistent_symbol (fun _ => some 0) (172800) ("A")
        = decide ((172800 : ℚ) - 0 > 2 * 24 * 60 * 60) from rfl,
      decide_eq_false_iff_not]
    norm_num
  · rw [show is_persistent_symbol (fun _ => some 0) (172799) ("A")
        = decide ((172799 : ℚ) - 0 > 2 * 24 * 60 * 60) from rfl,
      decide_eq_false_iff_not]
    norm_num
  · rw [show is_persistent_symbol (fun _ => some 0) (172801) ("A")
        = decide ((172801 : ℚ) - 0 > 2 * 24 * 60 * 60) from rfl,
      decide_eq_true_eq]
    norm_num

/-- C8 witness: the classifier applied to a concrete entry recorded at time 5
queried at time 200000. -/
theorem c8_persistence_strict_threshold_witness :
    is_persistent_symbol (fun _ => some 5) (200000) ("B") = true
      ↔ (200000 : ℚ) - 5 > 2 * 24 * 60 * 60 :=
  (c8_persistence_strict_threshold (fun _ => some 5) 200000 5 ("B") rfl).1

/-- Models Python's `str.endswith`: true iff `t` is a suffix of `s`
(computed over the character lists so that concrete instances evaluate). -/
def strEndsWith (s t : String) : Bool :=
  decide (s.data.reverse.take t.data.length = t.data.reverse)

/-- A row of the 24h ticker snapshot, with the three fields the selectors
read: `symbol`, `priceChangePercent` and `quoteVolume`. -/
structure Ticker where
  symbol : String
  priceChangePercent : ℚ
  quoteVolume : ℚ
deriving DecidableEq, Repr

/-- Stable insert for a descending sort by `key`: `x` goes in front of the
first element whose key is ≤ its own, so earlier elements win ties. -/
def insertDescBy (key : Ticker → ℚ) (x : Ticker) : List Ticker → List Ticker
  | [] => [x]
  | y :: t => if key y ≤ key x then x :: y :: t else y :: insertDescBy key x t

/-- Models Python's stable `sorted(..., key=..., reverse=True)`: descending
by `key`, elements with equal keys keep their input order. -/
def sortDescBy (key : Ticker → ℚ) : List Ticker → List Ticker
  | [] => []
  | x :: t => insertDescBy key x (sortDescBy key t)

/-- Watchlist side state threaded through symbol selection: the
`symbols_24h_gain` and `symbol_entry_times` dictionaries. -/
structure SelState where
  symbols_24h_gain : String → Option ℚ
  symbol_entry_times : String → Option ℚ

/-- The USDT-pair filter both selectors apply to the raw ticker list. -/
def usdtPairs (tickers : List Ticker) : List Ticker :=
  tickers.filter (fun d => strEndsWith d.symbol ("USDT"))

/-- Embeds `sorted_by_gain` of `main.py` `get_top_gaining_symbols`. -/
def sorted_by_gain (tickers : List Ticker) : List Ticker :=
  sortDescBy Ticker.priceChangePercent (usdtPairs tickers)

/-- Embeds `sorted_by_volume` of `main.py` `get_top_gaining_symbols`. -/
def sorted_by_volume (tickers : List Ticker) : List Ticker :=
  sortDescBy Ticker.quoteVolume (usdtPairs tickers)

/-- Embeds `large_cap_cutoff = max(1, int(total * 0.3))`; the float
truncation `int(...)` is modelled as exact floor division. -/
def large_cap_cutoff (total : Nat) : Nat := max 1 (total * 3 / 10)

/-- Embeds `mid_cap_cutoff = max(large_cap_cutoff + 1, int(total * 0.7))`. -/
def mid_cap_cutoff (total : Nat) : Nat :=
  max (large_cap_cutoff total + 1) (total * 7 / 10)

/-- Embeds `large_cap_list = sorted_by_volume[:large_cap_cutoff]`. -/
def large_cap_list (tickers : List Ticker) : List Ticker :=
  (sorted_by_volume tickers).take (large_cap_cutoff (sorted_by_volume tickers).length)

/-- Embeds `mid_cap_list = sorted_by_volume[large_cap_cutoff:mid_cap_cutoff]`. -/
def mid_cap_list (tickers : List Ticker) : List Ticker :=
  ((sorted_by_volume tickers).drop (large_cap_cutoff (sorted_by_volume tickers).length)).take
    (mid_cap_cutoff (sorted_by_volume tickers).length
      - large_cap_cutoff (sorted_by_volume tickers).length)

/-- Embeds `low_cap_list = sorted_by_volume[mid_cap_cutoff:]`. -/
def low_cap_list (tickers : List Ticker) : List Ticker :=
  (sorted_by_volume tickers).drop (mid_cap_cutoff (sorted_by_volume tickers).length)

/-- Embeds the first-seen bookkeeping shared by both selectors: record an
entry time for `sym` only when none exists yet (`if symbol not in
self.symbol_entry_times`); an existing entry is never overwritten. -/
def add_entry_time (now : ℚ) (sym : String) (st : SelState) : SelState :=
  if st.symbol_entry_times sym = none then
    { st with symbol_entry_times := upd st.symbol_entry_times sym now }
  else st

/-- Embeds the `add_symbol` helper of `main.py`: skip if already selected;
otherwise append the symbol, record its 24h gain, and record a first-seen
entry time only when none exists yet. -/
def add_symbol (now : ℚ) (pair : Ticker) (acc : List String) (st : SelState) :
    List String × SelState :=
  if pair.symbol ∈ acc then (acc, st)
  else
    (acc ++ [pair.symbol],
      add_entry_time now pair.symbol
        { st with symbols_24h_gain := upd st.symbols_24h_gain pair.symbol pair.priceChangePercent })

/-- Embeds one of the three `for pair in sorted_by_gain` selection loops of
`main.py`: stop once the watchlist reached `cap` (the aggregate limit
`top_gainers_limit + mid_cap_limit + low_cap_limit`), and add any pair that
belongs to the pass's tier list. -/
def selPass (cap : Nat) (tier : List Ticker) (now : ℚ) :
    List Ticker → List String → SelState → List String × SelState
  | [], acc, st => (acc, st)
  | p :: rest, acc, st =>
    if cap ≤ acc.length then (acc, st)
    else if p ∈ tier then
      selPass cap tier now rest (add_symbol now p acc st).1 (add_symbol now p acc st).2
    else selPass cap tier now rest acc st

/-- Embeds `main.py` `get_top_gaining_symbols`: filter to USDT pairs (empty
result on an empty filter), build the three volume tiers, then run the three
gain-ordered selection passes (Large, then Mid, then Low cap). -/
def Main.get_top_gaining_symbols (st : SelState) (now : ℚ)
    (tickers : List Ticker) (top_gainers_limit mid_cap_limit low_cap_limit : Nat) :
    List String × SelState :=
  if (usdtPairs tickers).isEmpty then ([], st)
  else if (sorted_by_volume tickers).length = 0 then ([], st)
  else
    let cap := top_gainers_limit + mid_cap_limit + low_cap_limit
    let r1 := selPass cap (large_cap_list tickers) now (sorted_by_gain tickers) [] st
    let r2 := selPass cap (mid_cap_list tickers) now (sorted_by_gain tickers) r1.1 r1.2
    let r3 := selPass cap (low_cap_list tickers) now (sorted_by_gain tickers) r2.1 r2.2
    r3

/-- Embeds the recording loop of `coinselectbot.py` `get_top_gaining_symbols`:
append each pair's symbol unconditionally, record its gain, and record a
first-seen entry time only when none exists yet. -/
def coinRecord (now : ℚ) :
    List Ticker → List String → SelState → List String × SelState
  | [], acc, st => (acc, st)
  | p :: rest, acc, st =>
    coinRecord now rest (acc ++ [p.symbol])
      (add_entry_time now p.symbol
        { st with symbols_24h_gain := upd st.symbols_24h_gain p.symbol p.priceChangePercent })

/-- Embeds `coinselectbot.py` `get_top_gaining_symbols`: the first `limit`
USDT pairs by descending 24h gain. -/
def Coinselect.get_top_gaining_symbols (st : SelState) (now : ℚ)
    (tickers : List Ticker) (limit : Nat) : List String × SelState :=
  coinRecord now ((sortDescBy Ticker.priceChangePercent (usdtPairs tickers)).take limit) [] st

theorem add_symbol_fst (now : ℚ) (p : Ticker) (acc : List String) (st : SelState) :
    (add_symbol now p acc st).1 = acc
      ∨ ((add_symbol now p acc st).1 = acc ++ [p.symbol] ∧ p.symbol ∉ acc) := by
  by_cases h : p.symbol ∈ acc
  · left
    simp [add_symbol, h]
  · right
    exact ⟨by simp [add_symbol, h], h⟩

theorem selPass_suffix (cap : Nat) (tier : List Ticker) (now : ℚ)
    (l : List Ticker) : ∀ acc st,
    ∃ suf, (selPass cap tier now l acc st).1 = acc ++ suf
      ∧ ∀ s ∈ suf, s ∈ tier.map Ticker.symbol := by
  induction l with
  | nil =>
    intro acc st
    exact ⟨[], by simp [selPass], by simp⟩
  | cons p rest ih =>
    intro acc st
    unfold selPass
    by_cases hcap : cap ≤ acc.length
    · rw [if_pos hcap]
      exact ⟨[], by simp, by simp⟩
    · rw [if_neg hcap]
      by_cases htier : p ∈ tier
      · rw [if_pos htier]
        rcases add_symbol_fst now p acc st with h1 | ⟨h1, _⟩
        · rw [h1]
          exact ih acc (add_symbol now p acc st).2
        · rw [h1]
          obtain ⟨suf, hs, hmem⟩ := ih (acc ++ [p.symbol]) (add_symbol now p acc st).2
          rw [List.append_assoc] at hs
          refine ⟨p.symbol :: suf, hs, ?_⟩
          intro s hsmem
          rcases List.mem_cons.1 hsmem with h | h
          · exact h ▸ List.mem_map.2 ⟨p, htier, rfl⟩
          · exact hmem s h
      · rw [if_neg htier]
        exact ih acc st

theorem selPass_nodup (cap : Nat) (tier : List Ticker) (now : ℚ)
    (l : List Ticker) : ∀ acc st, acc.Nodup →
    ((selPass cap tier now l acc st).1).Nodup := by
  induction l with
  | nil =>
    intro acc st h
    simpa [selPass] using h
  | cons p rest ih =>
    intro acc st h
    unfold selPass
    by_cases hcap : cap ≤ acc.length
    · rw [if_pos hcap]
      exact h
    · rw [if_neg hcap]
      by_cases htier : p ∈ tier
      · rw [if_pos htier]
        rcases add_symbol_fst now p acc st with h1 | ⟨h1, h2⟩
        · rw [h1]
          exact ih _ _ h
        · rw [h1]
          refine ih _ _ ?_
          simp [List.nodup_append, h, h2]
      · rw [if_neg htier]
        exact ih acc st h

theorem selPass_length_le (cap : Nat) (tier : List Ticker) (now : ℚ)
    (l : List Ticker) : ∀ acc st, acc.length ≤ cap →
    ((selPass cap tier now l acc st).1).length ≤ cap := by
  induction l with
  | nil =>
    intro acc st h
    simpa [selPass] using h
  | cons p rest ih =>
    intro acc st h
    unfold selPass
    by_cases hcap : cap ≤ acc.length
    · rw [if_pos hcap]
      exact h
    · rw [if_neg hcap]
      by_cases htier : p ∈ tier
      · rw [if_pos htier]
        rcases add_symbol_fst now p acc st with h1 | ⟨h1, _⟩
        · rw [h1]
          exact ih _ _ h
        · rw [h1]
          refine ih _ _ ?_
          simp only [List.length_append, List.length_singleton]
          omega
      · rw [if_neg htier]
        exact ih acc st h

theorem add_entry_time_keeps (now : ℚ) (sym : String) (st : SelState)
    (s : String) (t : ℚ) (ht : st.symbol_entry_times s = some t) :
    (add_entry_time now sym st).symbol_entry_times s = some t := by
  unfold add_entry_time
  by_cases hnone : st.symbol_entry_times sym = none
  · rw [if_pos hnone]
    by_cases hsp : s = sym
    · rw [hsp] at ht
      rw [ht] at hnone
      simp at hnone
    · simp only [upd]
      rw [if_neg hsp]
      exact ht
  · rw [if_neg hnone]
    exact ht

theorem add_symbol_keeps_entry (now : ℚ) (p : Ticker) (acc : List String)
    (st : SelState) (s : String) (t : ℚ)
    (ht : st.symbol_entry_times s = some t) :
    ((add_symbol now p acc st).2).symbol_entry_times s = some t := by
  unfold add_symbol
  by_cases hmem : p.symbol ∈ acc
  · rw [if_pos hmem]
    exact ht
  · rw [if_neg hmem]
    exact add_entry_time_keeps now p.symbol _ s t ht

theorem selPass_keeps_entry (cap : Nat) (tier : List Ticker) (now : ℚ)
    (l : List Ticker) : ∀ acc st s t,
    st.symbol_entry_times s = some t →
    ((selPass cap tier now l acc st).2).symbol_entry_times s = some t := by
  induction l with
  | nil =>
    intro acc st s t ht
    simpa [selPass] using ht
  | cons p rest ih =>
    intro acc st s t ht
    unfold selPass
    by_cases hcap : cap ≤ acc.length
    · rw [if_pos hcap]
      exact ht
    · rw [if_neg hcap]
      by_cases htier : p ∈ tier
      · rw [if_pos htier]
        exact ih _ _ s t (add_symbol_keeps_entry now p acc st s t ht)
      · rw [if_neg htier]
        exact ih _ _ s t ht

theorem coinRecord_keeps_entry (now : ℚ) (l : List Ticker) : ∀ acc st s t,
    st.symbol_entry_times s = some t →
    ((coinRecord now l acc st).2).symbol_entry_times s = some t := by
  induction l with
  | nil =>
    intro acc st s t ht
    simpa [coinRecord] using ht
  | cons p rest ih =>
    intro acc st s t ht
    unfold coinRecord
    exact ih _ _ s t (add_entry_time_keeps now p.symbol _ s t ht)

/-- C9: a first-seen timestamp already present before a selector call is
unchanged after it, in both `main.py` and `coinselectbot.py` (the recording
code only writes an entry when none exists). -/
theorem c9_first_seen_immutable (st : SelState) (now : ℚ)
    (tickers : List Ticker) (L M Lo limit : Nat) (s : String) (t : ℚ)
    (ht : st.symbol_entry_times s = some t) :
    ((Main.get_top_gaining_symbols st now tickers L M Lo).2).symbol_entry_times s
        = some t
      ∧ ((Coinselect.get_top_gaining_symbols st now tickers limit).2).symbol_entry_times s
        = some t := by
  constructor
  · unfold Main.get_top_gaining_symbols
    by_cases h1 : (usdtPairs tickers).isEmpty
    · rw [if_pos h1]
      exact ht
    · rw [if_neg h1]
      by_cases h2 : (sorted_by_volume tickers).length = 0
      · rw [if_pos h2]
        exact ht
      · rw [if_neg h2]
        exact selPass_keeps_entry _ _ _ _ _ _ s t
          (selPass_keeps_entry _ _ _ _ _ _ s t
            (selPass_keeps_entry _ _ _ _ _ _ s t ht))
  · exact coinRecord_keeps_entry _ _ _ _ s t ht

/-- C9 witness: an entry recorded at time 42 for a symbol survives a
selector call in both variants. -/
theorem c9_first_seen_immutable_witness :
    ((Main.get_top_gaining_symbols
        ⟨fun _ => none, fun x => if x = ("ZUSDT") then some 42 else none⟩ 7
        ([⟨("ZUSDT"), 3, 500⟩, ⟨("AUSDT"), 5, 400⟩]) 15 10 5).2).symbol_entry_times ("ZUSDT")
        = some 42
      ∧ ((Coinselect.get_top_gaining_symbols
        ⟨fun _ => none, fun x => if x = ("ZUSDT") then some 42 else none⟩ 7
        ([⟨("ZUSDT"), 3, 500⟩, ⟨("AUSDT"), 5, 400⟩]) 30).2).symbol_entry_times ("ZUSDT")
        = some 42 :=
  c9_first_seen_immutable _ 7 _ 15 10 5 30 ("ZUSDT") 42 (by simp)

/-- C5 counterexample: for a non-empty filtered list with total = 1 the
cutoffs are largeCutoff = 1 and midCutoff = max(2, 0) = 2, violating
midCutoff ≤ total. -/
theorem c5_cutoff_total_one_counterexample :
    large_cap_cutoff 1 = 1 ∧ mid_cap_cutoff 1 = 2 ∧ ¬ (mid_cap_cutoff 1 ≤ 1) :=
  ⟨by decide, by decide, by decide⟩

/-- C5 amended: for every total, 1 ≤ largeCutoff < midCutoff; the upper
bound midCutoff ≤ total holds for every total ≥ 2 (it fails only at
total = 1, where midCutoff = 2); and the selector returns the empty list
when the filtered ticker set is empty. -/
theorem c5_cutoff_invariant_amended (total : Nat) :
    1 ≤ large_cap_cutoff total
      ∧ large_cap_cutoff total < mid_cap_cutoff total
      ∧ (2 ≤ total → mid_cap_cutoff total ≤ total)
      ∧ ∀ st now tickers L M Lo, usdtPairs tickers = [] →
          (Main.get_top_gaining_symbols st now tickers L M Lo).1 = [] := by
  refine ⟨le_max_left 1 _, ?_, ?_, ?_⟩
  · exact lt_of_lt_of_le (Nat.lt_succ_self _) (le_max_left _ _)
  · intro h2
    unfold mid_cap_cutoff large_cap_cutoff
    omega
  · intro st now tickers L M Lo hempty
    unfold Main.get_top_gaining_symbols
    rw [if_pos (by rw [hempty]; rfl)]

/-- C5 witness: the amended invariant applied at total = 5 and to an empty
ticker list. -/
theorem c5_cutoff_invariant_amended_witness :
    mid_cap_cutoff 5 ≤ 5
      ∧ (Main.get_top_gaining_symbols ⟨fun _ => none, fun _ => none⟩ 0 ([]) 15 10 5).1
        = [] :=
  ⟨(c5_cutoff_invariant_amended 5).2.2.1 (by decide),
    (c5_cutoff_invariant_amended 0).2.2.2 ⟨fun _ => none, fun _ => none⟩ 0 ([]) 15 10 5 rfl⟩

theorem selPass3_shape (cap : Nat) (t1 t2 t3 : List Ticker) (now : ℚ)
    (gain : List Ticker) (st : SelState) :
    let r1 := selPass cap t1 now gain [] st
    let r2 := selPass cap t2 now gain r1.1 r1.2
    let r3 := selPass cap t3 now gain r2.1 r2.2
    r3.1.Nodup ∧ r3.1.length ≤ cap
      ∧ ∃ l1 l2 l3, r3.1 = l1 ++ (l2 ++ l3)
          ∧ (∀ s ∈ l1, s ∈ t1.map Ticker.symbol)
          ∧ (∀ s ∈ l2, s ∈ t2.map Ticker.symbol)
          ∧ (∀ s ∈ l3, s ∈ t3.map Ticker.symbol) := by
  intro r1 r2 r3
  have n1 : r1.1.Nodup := selPass_nodup cap t1 now gain [] st List.nodup_nil
  have n2 : r2.1.Nodup := selPass_nodup cap t2 now gain r1.1 r1.2 n1
  have n3 : r3.1.Nodup := selPass_nodup cap t3 now gain r2.1 r2.2 n2
  have g1 : r1.1.length ≤ cap :=
    selPass_length_le cap t1 now gain [] st (Nat.zero_le cap)
  have g2 : r2.1.length ≤ cap := selPass_length_le cap t2 now gain r1.1 r1.2 g1
  have g3 : r3.1.length ≤ cap := selPass_length_le cap t3 now gain r2.1 r2.2 g2
  obtain ⟨s1, hs1, hm1⟩ := selPass_suffix cap t1 now gain [] st
  obtain ⟨s2, hs2, hm2⟩ := selPass_suffix cap t2 now gain r1.1 r1.2
  obtain ⟨s3, hs3, hm3⟩ := selPass_suffix cap t3 now gain r2.1 r2.2
  have e1 : r1.1 = s1 := by simpa using hs1
  have e2 : r2.1 = r1.1 ++ s2 := hs2
  have e3 : r3.1 = r2.1 ++ s3 := hs3
  exact ⟨n3, g3, s1, s2, s3,
    by rw [e3, e2, e1, List.append_assoc], hm1, hm2, hm3⟩

/-- C4 amended: the selection is capped only by the aggregate limit
large + mid + low (a single tier may contribute more than its nominal
per-tier share); the output has no duplicate symbol, its length is at most
large + mid + low, and it decomposes as Large-tier picks, then Mid-tier
picks, then Low-tier picks, each drawn from the corresponding volume tier. -/
theorem c4_selection_shape (st : SelState) (now : ℚ) (tickers : List Ticker)
    (L M Lo : Nat) :
    ((Main.get_top_gaining_symbols st now tickers L M Lo).1).Nodup
      ∧ ((Main.get_top_gaining_symbols st now tickers L M Lo).1).length ≤ L + M + Lo
      ∧ ∃ l1 l2 l3,
          (Main.get_top_gaining_symbols st now tickers L M Lo).1 = l1 ++ (l2 ++ l3)
            ∧ (∀ s ∈ l1, s ∈ (large_cap_list tickers).map Ticker.symbol)
            ∧ (∀ s ∈ l2, s ∈ (mid_cap_list tickers).map Ticker.symbol)
            ∧ (∀ s ∈ l3, s ∈ (low_cap_list tickers).map Ticker.symbol) := by
  unfold Main.get_top_gaining_symbols
  by_cases h1 : (usdtPairs tickers).isEmpty
  · rw [if_pos h1]
    exact ⟨List.nodup_nil, Nat.zero_le _, [], [], [], rfl,
      by simp, by simp, by simp⟩
  · rw [if_neg h1]
    by_cases h2 : (sorted_by_volume tickers).length = 0
    · rw [if_pos h2]
      exact ⟨List.nodup_nil, Nat.zero_le _, [], [], [], rfl,
        by simp, by simp, by simp⟩
    · rw [if_neg h2]
      exact selPass3_shape (L + M + Lo) (large_cap_list tickers)
        (mid_cap_list tickers) (low_cap_list tickers) now
        (sorted_by_gain tickers) st

/-- Seven-ticker universe for the per-tier-limit counterexample: total = 7
gives largeCutoff = 2, so the Large tier is the two top-volume tickers,
which are also the two top gainers. -/
def c4tickers : List Ticker :=
  [⟨("AUSDT"), 10, 1000⟩, ⟨("BUSDT"), 9, 900⟩, ⟨("CUSDT"), 8, 100⟩,
    ⟨("DUSDT"), 7, 90⟩, ⟨("EUSDT"), 6, 80⟩, ⟨("FUSDT"), 5, 70⟩, ⟨("GUSDT"), 4, 60⟩]

/-- C4 counterexample: with per-tier limits large = 1, mid = 1, low = 0, the
selection takes TWO symbols from the Large-cap tier (the per-tier limits are
not enforced — each pass stops only at the aggregate limit 1 + 1 + 0 = 2),
contradicting "at most `large` symbols from the Large-cap tier". -/
theorem c4_per_tier_limit_counterexample :
    (Main.get_top_gaining_symbols ⟨fun _ => none, fun _ => none⟩ 0 c4tickers 1 1 0).1
        = [("AUSDT"), ("BUSDT")]
      ∧ (((Main.get_top_gaining_symbols ⟨fun _ => none, fun _ => none⟩ 0 c4tickers 1 1 0).1).filter
          (fun s => ((large_cap_list c4tickers).map Ticker.symbol).contains s)).length = 2 :=
  ⟨by decide, by decide⟩

/-- Modelled from the spec: the SetupScorer component (spec §4.3) is not
present in the repository's source files; its metrics record
{volatilityRatio, oiChangePct, priceMovePct, fundingRatePct}. -/
structure SetupMetrics where
  volatilityRatio : ℚ
  oiChangePct : ℚ
  priceMovePct : ℚ
  fundingRatePct : ℚ
deriving DecidableEq, Repr

/-- Modelled from the spec: the true range `high - low` of one candle. -/
def candleRange (c : Candle) : ℚ := c.high - c.low

/-- Modelled from the spec: the most recent 7 candles of a most-recent-last
sequence. -/
def lastSeven (candles : List Candle) : List Candle :=
  candles.drop (candles.length - 7)

/-- Modelled from the spec: mean range of the first 6 of the last 7
candles. -/
def avgRange (candles : List Candle) : ℚ :=
  (((lastSeven candles).take 6).map candleRange).sum / 6

/-- Modelled from the spec: the 7th (latest) of the last-7 ranges. -/
def currentRange (candles : List Candle) : ℚ :=
  ((lastSeven candles).map candleRange).getD 6 0

/-- Modelled from the spec: the latest close `close[-1]`. -/
def lastClose (candles : List Candle) : ℚ :=
  ((lastSeven candles).getD 6 ⟨0, 0, 0, 0, 0⟩).close

/-- Modelled from the spec: the second-to-latest close `close[-2]`. -/
def prevClose (candles : List Candle) : ℚ :=
  ((lastSeven candles).getD 5 ⟨0, 0, 0, 0, 0⟩).close

/-- Modelled from the spec: volatility compression — the average range is
positive and the current range is at most 30% of it. -/
def volatilityCompressed (candles : List Candle) : Prop :=
  0 < avgRange candles ∧ currentRange candles ≤ (3 / 10) * avgRange candles

/-- Modelled from the spec: price stability — the last close moved at most
1% from the previous close. -/
def priceStable (candles : List Candle) : Prop :=
  |lastClose candles - prevClose candles| / prevClose candles ≤ 1 / 100

/-- Modelled from the spec: open-interest surge — relative change of at
least +15% since the stored previous reading; the previous reading defaults
to the current one on first observation, so a first cycle cannot qualify. -/
def oiSurge (previousOpenInterest : Option ℚ) (currentOpenInterest : ℚ) : Prop :=
  (currentOpenInterest - previousOpenInterest.getD currentOpenInterest)
      / previousOpenInterest.getD currentOpenInterest ≥ 15 / 100

/-- Modelled from the spec: funding extremity — absolute funding rate of at
least 0.10 percent. -/
def fundingExtreme (fundingRatePct : ℚ) : Prop := 1 / 10 ≤ |fundingRatePct|

instance (candles : List Candle) : Decidable (volatilityCompressed candles) := by
  unfold volatilityCompressed
  exact inferInstance

instance (candles : List Candle) : Decidable (priceStable candles) := by
  unfold priceStable
  exact inferInstance

instance (p : Option ℚ) (c : ℚ) : Decidable (oiSurge p c) := by
  unfold oiSurge
  exact inferInstance

instance (fr : ℚ) : Decidable (fundingExtreme fr) := by
  unfold fundingExtreme
  exact inferInstance

/-- Modelled from the spec: `score(symbol, recentCandles, currentOpenInterest,
currentFundingRatePct)`; the per-symbol `previousOpenInterest[symbol]` state
is passed in as `previousOpenInterest` and returned updated to the current
reading every cycle regardless of qualification.  Returns the computed
metrics iff all four component checks pass (given at least 7 candles). -/
def score (previousOpenInterest : Option ℚ) (recentCandles : List Candle)
    (currentOpenInterest currentFundingRatePct : ℚ) :
    Option SetupMetrics × ℚ :=
  if recentCandles.length < 7 then (none, currentOpenInterest)
  else if volatilityCompressed recentCandles ∧ priceStable recentCandles
      ∧ oiSurge previousOpenInterest currentOpenInterest
      ∧ fundingExtreme currentFundingRatePct then
    (some ⟨currentRange recentCandles / avgRange recentCandles,
        (currentOpenInterest - previousOpenInterest.getD currentOpenInterest)
            / previousOpenInterest.getD currentOpenInterest * 100,
        |lastClose recentCandles - prevClose recentCandles|
            / prevClose recentCandles * 100,
        currentFundingRatePct⟩,
      currentOpenInterest)
  else (none, currentOpenInterest)

/-- C3: with at least 7 candles, `score` returns a metrics value iff all
four component checks (volatility compression, price stability,
open-interest surge, funding extremity) pass; hence making any single check
fail while the others hold yields no setup. -/
theorem c3_setup_conjunction (previousOpenInterest : Option ℚ)
    (recentCandles : List Candle) (currentOpenInterest currentFundingRatePct : ℚ)
    (hlen : 7 ≤ recentCandles.length) :
    (∃ m, (score previousOpenInterest recentCandles currentOpenInterest
        currentFundingRatePct).1 = some m)
      ↔ (volatilityCompressed recentCandles ∧ priceStable recentCandles
          ∧ oiSurge previousOpenInterest currentOpenInterest
          ∧ fundingExtreme currentFundingRatePct) := by
  unfold score
  rw [if_neg (by omega)]
  by_cases hall : volatilityCompressed recentCandles ∧ priceStable recentCandles
      ∧ oiSurge previousOpenInterest currentOpenInterest
      ∧ fundingExtreme currentFundingRatePct
  · rw [if_pos hall]
    simpa using hall
  · rw [if_neg hall]
    simpa using hall

/-- Concrete candle history for the C3 witness: six candles of range 10
followed by one of range 2 (20% of the average), with a flat close. -/
def c3candles : List Candle :=
  [⟨0, 5, 12, 2, 100⟩, ⟨1, 5, 12, 2, 100⟩, ⟨2, 5, 12, 2, 100⟩,
    ⟨3, 5, 12, 2, 100⟩, ⟨4, 5, 12, 2, 100⟩, ⟨5, 5, 12, 2, 100⟩,
    ⟨6, 99, 101, 99, 100⟩]

/-- C3 witness: the conjunction theorem applied to a concrete 7-candle
history, an open interest moving from 1000 to 1200 and a funding rate of
0.15 percent. -/
theorem c3_setup_conjunction_witness :
    (∃ m, (score (some 1000) c3candles 1200 (3 / 20)).1 = some m)
      ↔ (volatilityCompressed c3candles ∧ priceStable c3candles
          ∧ oiSurge (some 1000) 1200 ∧ fundingExtreme (3 / 20)) :=
  c3_setup_conjunction (some 1000) c3candles 1200 (3 / 20) (by decide)
